import Mathlib

/-!
# Verification of the arena targeting game (src/pages/index.tsx)

Shallow embedding of the single React component in src/pages/index.tsx: a
reaction-timing game with a 30-tick round clock, a fixed-interval target
spawner, per-target expiry timeouts, and hit/miss accounting.

The component runs on a single-threaded event loop.  We model it as a state
machine: `GameState` holds the React state hooks (targets, score, misses,
gameActive, timeLeft, difficulty), the two interval refs (modelled as liveness
flags plus the next due time), the set of pending setTimeout callbacks, and a
millisecond clock `now`.

Two closure subtleties of the source are modelled faithfully:

* The expiry setTimeout inside spawnTargets reads the identifier gameActive
  from the render closure in which spawnTargets was created.  spawnTargets is
  only invoked from startGame, which is itself invoked from the START button,
  rendered only while gameActive is false; the value captured by the spawner
  interval (and hence by every expiry callback it schedules) is therefore the
  pre-round value of gameActive.  We store that captured value in the state
  (`spawnerCaptured`) at startGame time and stamp it into each scheduled
  expiry.
* The arena onClick and each target button onClick are re-attached on every
  render, so they read the current state at the time the tap event is
  processed; they are modelled as functions of the current state.

Target ids are Date.now() values in the source.  Successive spawner fires are
at least 800 ms apart (the smallest spawn interval), so ids are strictly
increasing across spawns; we model the id supply as the monotone counter
`nextId`.

Timing: every scheduled callback carries the absolute time at which it becomes
due and may only fire at or after that time (the event loop may run a callback
late, never early).  `Op.advance` moves the clock forward arbitrarily, which
admits every real schedule.
-/

namespace Arena

/-- Difficulty levels selectable before a round starts. -/
inductive Difficulty where
  | easy
  | medium
  | hard

/-- difficultySettings[d].targetDuration (ms). -/
def targetDuration : Difficulty → Nat
  | Difficulty.easy => 2000
  | Difficulty.medium => 1500
  | Difficulty.hard => 1000

/-- difficultySettings[d].spawnInterval (ms). -/
def spawnInterval : Difficulty → Nat
  | Difficulty.easy => 1500
  | Difficulty.medium => 1200
  | Difficulty.hard => 800

/-- difficultySettings[d].targetSize (px); rational because it enters the
position arithmetic. -/
def targetSize : Difficulty → ℚ
  | Difficulty.easy => 80
  | Difficulty.medium => 60
  | Difficulty.hard => 45

/-- The Target interface of the source: id, position, active, hit. -/
structure Target where
  id : Nat
  x : ℚ
  y : ℚ
  active : Bool
  hit : Bool

/-- A pending setTimeout callback body.  An expiry callback carries the
gameActive value captured by the spawner closure; a removal callback is the
post-hit 200 ms removal. -/
inductive TimeoutKind where
  | expiry (tid : Nat) (capturedActive : Bool)
  | removal (tid : Nat)

/-- A pending setTimeout: the round in which it was scheduled, the absolute
time at which it becomes due, and its body. -/
structure Timeout where
  round : Nat
  fireAt : Nat
  kind : TimeoutKind

/-- The complete mutable state of the component plus the scheduler. -/
structure GameState where
  targets : List Target
  score : Nat
  misses : Nat
  gameActive : Bool
  timeLeft : Nat
  difficulty : Difficulty
  /-- current time in ms -/
  now : Nat
  /-- gameTimerRef holds a live interval -/
  gameTimer : Bool
  /-- round in which the live game interval was created -/
  gameTimerRound : Nat
  /-- next due time of the game interval -/
  gameTickAt : Nat
  /-- targetTimerRef holds a live interval -/
  targetTimer : Bool
  /-- round in which the live spawner interval was created -/
  targetTimerRound : Nat
  /-- next due time of the spawner interval -/
  spawnTickAt : Nat
  /-- the gameActive value captured by the spawner closure -/
  spawnerCaptured : Bool
  pending : List Timeout
  /-- id supply (Date.now() of the next spawn) -/
  nextId : Nat
  /-- number of startGame calls so far; identifies the current round -/
  round : Nat
  /-- value of nextId when the current round started -/
  roundStartId : Nat

/-- endGame: setGameActive(false); clearInterval both refs; setTargets([]).
Pending setTimeout callbacks are NOT cleared. -/
def endGame (s : GameState) : GameState :=
  { s with gameActive := false, gameTimer := false, targetTimer := false,
           targets := [] }

/-- startGame: reset score, misses, timeLeft, targets; set active; install the
game interval (first due in 1000 ms) and, via spawnTargets(), the spawner
interval (first due in spawnInterval ms).  The spawner closure captures the
current render value of gameActive, i.e. the value before setGameActive(true)
takes effect. -/
def startGame (s : GameState) : GameState :=
  { s with score := 0, misses := 0, timeLeft := 30, targets := [],
           gameActive := true,
           gameTimer := true, gameTimerRound := s.round + 1,
           gameTickAt := s.now + 1000,
           targetTimer := true, targetTimerRound := s.round + 1,
           spawnTickAt := s.now + spawnInterval s.difficulty,
           spawnerCaptured := s.gameActive,
           round := s.round + 1, roundStartId := s.nextId }

/-- One fire of the game interval: decrement timeLeft, except that a tick
seen at timeLeft ≤ 1 calls endGame() and sets timeLeft to 0 in the same
callback. -/
def gameTick (s : GameState) : GameState :=
  if s.timeLeft ≤ 1 then
    { endGame s with timeLeft := 0, gameTickAt := s.gameTickAt + 1000 }
  else { s with timeLeft := s.timeLeft - 1, gameTickAt := s.gameTickAt + 1000 }

/-- The newTarget record built by one fire of the spawner interval, given the
two Math.random() draws and the arena rectangle. -/
def spawnedTarget (s : GameState) (rx ry w h : ℚ) : Target :=
  { id := s.nextId,
    x := rx * (w - targetSize s.difficulty),
    y := ry * (h - targetSize s.difficulty),
    active := true, hit := false }

/-- One fire of the spawner interval: append the new target and schedule its
expiry after targetDuration ms; the expiry callback closes over the spawner
closure value of gameActive. -/
def spawnTick (s : GameState) (rx ry w h : ℚ) : GameState :=
  { s with targets := s.targets ++ [spawnedTarget s rx ry w h],
           nextId := s.nextId + 1,
           spawnTickAt := s.spawnTickAt + spawnInterval s.difficulty,
           pending := s.pending ++
             [⟨s.round, s.now + targetDuration s.difficulty,
               TimeoutKind.expiry s.nextId s.spawnerCaptured⟩] }

/-- hitTarget: mark the target hit, increment score unconditionally, schedule
removal after 200 ms.  Note: no guard of its own. -/
def hitTarget (s : GameState) (tid : Nat) : GameState :=
  { s with targets := s.targets.map
             (fun t => if t.id == tid then { t with hit := true } else t),
           score := s.score + 1,
           pending := s.pending ++ [⟨s.round, s.now + 200,
             TimeoutKind.removal tid⟩] }

/-- The onClick handler of a target button: stopPropagation, then
if (!target.hit) hitTarget(target.id).  The handler closes over the target of
the current render. -/
def tapTarget (s : GameState) (tid : Nat) : GameState :=
  match s.targets.find? (fun t => t.id == tid) with
  | some t => if t.hit then s else hitTarget s tid
  | none => s

/-- handleArenaClick: if (gameActive) increment misses. -/
def handleArenaClick (s : GameState) : GameState :=
  if s.gameActive then { s with misses := s.misses + 1 } else s

/-- The body of a pending setTimeout.  Expiry: remove the target by id
(unconditionally), then increment misses only if the CAPTURED gameActive is
true.  Removal: remove the target by id. -/
def applyTimeout (s : GameState) : TimeoutKind → GameState
  | TimeoutKind.expiry tid cap =>
      let s1 := { s with targets := s.targets.filter (fun t => t.id != tid) }
      if cap then { s1 with misses := s1.misses + 1 } else s1
  | TimeoutKind.removal tid =>
      { s with targets := s.targets.filter (fun t => t.id != tid) }

/-- Events the event loop can process. -/
inductive Op where
  /-- START button press (button exists only while inactive) -/
  | startRound
  /-- fire of the game interval -/
  | clockTick
  /-- fire of the spawner interval with the random draws and arena rect -/
  | spawn (rx ry w h : ℚ)
  /-- tap on a target button -/
  | tap (tid : Nat)
  /-- tap on the arena background -/
  | arenaClick
  /-- fire of the i-th pending setTimeout -/
  | fireTimeout (i : Nat)
  /-- let time pass -/
  | advance (d : Nat)
  /-- difficulty button press (buttons exist only while inactive) -/
  | selectDifficulty (d : Difficulty)

/-- Small-step semantics: `none` when the event cannot occur in state s.
Intervals fire only while installed and due; a cleared interval never fires
again.  A setTimeout fires once, at or after its due time. -/
def step (s : GameState) : Op → Option GameState
  | Op.startRound => if s.gameActive then none else some (startGame s)
  | Op.clockTick =>
      if s.gameTimer ∧ s.gameTickAt ≤ s.now then some (gameTick s) else none
  | Op.spawn rx ry w h =>
      if s.targetTimer ∧ s.gameActive ∧ s.spawnTickAt ≤ s.now then
        some (spawnTick s rx ry w h)
      else none
  | Op.tap tid => some (tapTarget s tid)
  | Op.arenaClick => some (handleArenaClick s)
  | Op.fireTimeout i =>
      match s.pending.get? i with
      | some p =>
          if p.fireAt ≤ s.now then
            some (applyTimeout { s with pending := s.pending.eraseIdx i }
                    p.kind)
          else none
      | none => none
  | Op.advance d => some { s with now := s.now + d }
  | Op.selectDifficulty d =>
      if s.gameActive then none else some { s with difficulty := d }

/-- Run a list of events. -/
def run : GameState → List Op → Option GameState
  | s, [] => some s
  | s, op :: ops =>
      match step s op with
      | some s1 => run s1 ops
      | none => none

/-- The state of the freshly mounted component. -/
def initState : GameState :=
  { targets := [], score := 0, misses := 0, gameActive := false,
    timeLeft := 30, difficulty := Difficulty.medium, now := 0,
    gameTimer := false, gameTimerRound := 0, gameTickAt := 0,
    targetTimer := false, targetTimerRound := 0, spawnTickAt := 0,
    spawnerCaptured := false, pending := [], nextId := 0, round := 0,
    roundStartId := 0 }

/-- A state is reachable when some sequence of events produces it from the
initial state. -/
def Reachable (s : GameState) : Prop :=
  ∃ ops : List Op, run initState ops = some s



/-! ## Invariants of reachable states -/

/-- The target id a pending timeout acts on. -/
def timeoutId : TimeoutKind → Nat
  | TimeoutKind.expiry tid _ => tid
  | TimeoutKind.removal tid => tid

/-- The captured gameActive a pending timeout tests before counting a miss
(removal timeouts never touch misses, so they count as false). -/
def timeoutCap : TimeoutKind → Bool
  | TimeoutKind.expiry _ cap => cap
  | TimeoutKind.removal _ => false

/-- The inductive invariant of the component.  In particular: the spawner
closure always captured gameActive = false, every pending expiry carries that
false flag, an inactive state has no live targets and no live intervals, live
intervals belong to the current round, target ids are fresh for the current
round and pairwise distinct, and timeouts scheduled in earlier rounds name ids
older than every id of the current round. -/
def Inv (s : GameState) : Prop :=
  s.spawnerCaptured = false ∧
  (∀ p ∈ s.pending, timeoutCap p.kind = false) ∧
  (s.gameActive = false →
      s.targets = [] ∧ s.gameTimer = false ∧ s.targetTimer = false) ∧
  (s.gameTimer = true → s.gameActive = true ∧ s.gameTimerRound = s.round) ∧
  (s.targetTimer = true → s.gameActive = true ∧ s.targetTimerRound = s.round) ∧
  (s.gameActive = true → 1 ≤ s.timeLeft) ∧
  s.roundStartId ≤ s.nextId ∧
  (∀ t ∈ s.targets, s.roundStartId ≤ t.id ∧ t.id < s.nextId) ∧
  (∀ p ∈ s.pending, timeoutId p.kind < s.nextId ∧
      (p.round < s.round → timeoutId p.kind < s.roundStartId)) ∧
  (s.targets.map Target.id).Nodup

lemma inv_startGame {s : GameState} (h : Inv s) (ha : s.gameActive = false) :
    Inv (startGame s) := by
  obtain ⟨h1, h2, h3, h4, h5, h6, h7, h8, h9, h10⟩ := h
  refine ⟨by simp [startGame, ha], ?_, by simp [startGame], by simp [startGame],
    by simp [startGame], by simp [startGame], by simp [startGame],
    by simp [startGame], ?_, by simp [startGame]⟩
  · simpa [startGame] using h2
  · simp only [startGame]
    intro p hp
    exact ⟨(h9 p hp).1, fun _ => (h9 p hp).1⟩

lemma inv_gameTick {s : GameState} (h : Inv s) (hg : s.gameTimer = true) :
    Inv (gameTick s) := by
  obtain ⟨h1, h2, h3, h4, h5, h6, h7, h8, h9, h10⟩ := h
  obtain ⟨hact, hrd⟩ := h4 hg
  unfold gameTick
  split
  case isTrue hle =>
    exact ⟨h1, h2, by simp [endGame], by simp [endGame], by simp [endGame],
      by simp [endGame], h7, by simp [endGame], h9, by simp [endGame]⟩
  case isFalse hlt =>
    refine ⟨h1, h2, by simp [hact], fun _ => ⟨hact, hrd⟩, ?_, ?_, h7, h8, h9, h10⟩
    · intro htt
      exact h5 htt
    · intro _
      show 1 ≤ s.timeLeft - 1
      omega

lemma inv_spawnTick {s : GameState} (h : Inv s) (ht : s.targetTimer = true)
    (rx ry w hh : ℚ) : Inv (spawnTick s rx ry w hh) := by
  obtain ⟨h1, h2, h3, h4, h5, h6, h7, h8, h9, h10⟩ := h
  obtain ⟨hact, hrd⟩ := h5 ht
  refine ⟨h1, ?_, by simp [spawnTick, hact], ?_, ?_, h6, ?_, ?_, ?_, ?_⟩
  · simp only [spawnTick, List.mem_append, List.mem_singleton]
    rintro p (hp | rfl)
    · exact h2 p hp
    · simpa [timeoutCap] using h1
  · intro hgt
    exact h4 hgt
  · intro htt
    exact ⟨hact, hrd⟩
  · simp only [spawnTick]
    omega
  · simp only [spawnTick, List.mem_append, List.mem_singleton]
    rintro t (htm | rfl)
    · exact ⟨(h8 t htm).1, Nat.lt_succ_of_lt (h8 t htm).2⟩
    · exact ⟨h7, Nat.lt_succ_self _⟩
  · simp only [spawnTick, List.mem_append, List.mem_singleton]
    rintro p (hp | rfl)
    · exact ⟨Nat.lt_succ_of_lt (h9 p hp).1, fun hr => (h9 p hp).2 hr⟩
    · exact ⟨Nat.lt_succ_self _, fun hr => absurd hr (lt_irrefl _)⟩
  · simp only [spawnTick, List.map_append, List.map_cons, List.map_nil]
    rw [List.nodup_append]
    refine ⟨h10, List.nodup_singleton _, ?_⟩
    intro a ha hb
    simp only [List.mem_singleton] at hb
    obtain ⟨t, htm, rfl⟩ := List.mem_map.1 ha
    have := (h8 t htm).2
    simp only [spawnedTarget] at hb
    omega

lemma tapTarget_eq (s : GameState) (tid : Nat) :
    tapTarget s tid = s ∨
      (∃ t, s.targets.find? (fun u => u.id == tid) = some t ∧ t.hit = false ∧
        tapTarget s tid = hitTarget s tid) := by
  unfold tapTarget
  cases hf : s.targets.find? (fun u => u.id == tid) with
  | none => exact Or.inl rfl
  | some t =>
    by_cases hh : t.hit
    · exact Or.inl (by simp [hh])
    · exact Or.inr ⟨t, rfl, by simpa using hh, by simp [hh]⟩

lemma inv_hitTarget {s : GameState} (h : Inv s) {tid : Nat} {t : Target}
    (hf : s.targets.find? (fun u => u.id == tid) = some t) :
    Inv (hitTarget s tid) := by
  obtain ⟨h1, h2, h3, h4, h5, h6, h7, h8, h9, h10⟩ := h
  have htm : t ∈ s.targets := List.mem_of_find?_eq_some hf
  have htid : t.id = tid := by simpa using List.find?_some hf
  refine ⟨h1, ?_, ?_, h4, h5, h6, h7, ?_, ?_, ?_⟩
  · simp only [hitTarget, List.mem_append, List.mem_singleton]
    rintro p (hp | rfl)
    · exact h2 p hp
    · rfl
  · intro hga
    rw [(h3 hga).1] at htm
    exact absurd htm (List.not_mem_nil t)
  · simp only [hitTarget, List.mem_map]
    rintro u ⟨v, hv, rfl⟩
    have hb := h8 v hv
    split <;> simpa using hb
  · simp only [hitTarget, List.mem_append, List.mem_singleton]
    rintro p (hp | rfl)
    · exact h9 p hp
    · refine ⟨?_, fun hr => absurd hr (lt_irrefl _)⟩
      simpa [timeoutId, htid] using (h8 t htm).2
  · simp only [hitTarget, List.map_map]
    have hcomp : (Target.id ∘ fun u => if u.id == tid then { u with hit := true } else u)
        = Target.id := by
      funext v
      simp only [Function.comp_apply]
      split <;> rfl
    rw [hcomp]
    exact h10

lemma inv_arenaClick {s : GameState} (h : Inv s) : Inv (handleArenaClick s) := by
  unfold handleArenaClick
  split
  · exact h
  · exact h

lemma inv_fire {s : GameState} (h : Inv s) {i : Nat} {p : Timeout}
    (hp : s.pending.get? i = some p) :
    Inv (applyTimeout { s with pending := s.pending.eraseIdx i } p.kind) := by
  obtain ⟨h1, h2, h3, h4, h5, h6, h7, h8, h9, h10⟩ := h
  have hpm : p ∈ s.pending := List.get?_mem hp
  have hcap : timeoutCap p.kind = false := h2 p hpm
  have herase : ∀ q ∈ s.pending.eraseIdx i, q ∈ s.pending :=
    fun q hq => (List.eraseIdx_sublist s.pending i).subset hq
  have hcore : ∀ tid : Nat,
      Inv { s with pending := s.pending.eraseIdx i,
                   targets := s.targets.filter (fun t => t.id != tid) } := by
    intro tid
    refine ⟨h1, fun q hq => h2 q (herase q hq), ?_, h4, h5, h6, h7, ?_, ?_, ?_⟩
    · intro hga
      exact ⟨by simp [(h3 hga).1], (h3 hga).2.1, (h3 hga).2.2⟩
    · intro u hu
      exact h8 u (List.mem_of_mem_filter hu)
    · exact fun q hq => h9 q (herase q hq)
    · exact h10.sublist ((List.filter_sublist s.targets).map Target.id)
  cases hk : p.kind with
  | expiry tid cap =>
    have hcf : cap = false := by simpa [hk, timeoutCap] using hcap
    subst hcf
    simpa [applyTimeout] using hcore tid
  | removal tid =>
    simpa [applyTimeout] using hcore tid

lemma inv_step {s s1 : GameState} {op : Op} (h : Inv s)
    (hs : step s op = some s1) : Inv s1 := by
  cases op with
  | startRound =>
    simp only [step] at hs
    split at hs
    case isTrue hga => exact Option.noConfusion hs
    case isFalse hga =>
      injection hs with hs
      subst hs
      exact inv_startGame h (by simpa using hga)
  | clockTick =>
    simp only [step] at hs
    split at hs
    case isTrue hc =>
      injection hs with hs
      subst hs
      exact inv_gameTick h hc.1
    case isFalse hc => exact Option.noConfusion hs
  | spawn rx ry w hh =>
    simp only [step] at hs
    split at hs
    case isTrue hc =>
      injection hs with hs
      subst hs
      exact inv_spawnTick h hc.1 rx ry w hh
    case isFalse hc => exact Option.noConfusion hs
  | tap tid =>
    simp only [step] at hs
    injection hs with hs
    subst hs
    rcases tapTarget_eq s tid with he | ⟨t, hf, _, he⟩
    · rw [he]; exact h
    · rw [he]; exact inv_hitTarget h hf
  | arenaClick =>
    simp only [step] at hs
    injection hs with hs
    subst hs
    exact inv_arenaClick h
  | fireTimeout i =>
    simp only [step] at hs
    cases hp : s.pending.get? i with
    | none => rw [hp] at hs; exact Option.noConfusion hs
    | some p =>
      rw [hp] at hs
      dsimp only at hs
      split at hs
      case isTrue hdue =>
        injection hs with hs
        subst hs
        exact inv_fire h hp
      case isFalse hdue => exact Option.noConfusion hs
  | advance d =>
    simp only [step] at hs
    injection hs with hs
    subst hs
    exact h
  | selectDifficulty d =>
    simp only [step] at hs
    split at hs
    case isTrue hga => exact Option.noConfusion hs
    case isFalse hga =>
      injection hs with hs
      subst hs
      exact h

lemma inv_init : Inv initState := by
  refine ⟨rfl, ?_, ?_, ?_, ?_, ?_, ?_, ?_, ?_, ?_⟩ <;> simp [initState]

lemma inv_run : ∀ (ops : List Op) (s s1 : GameState),
    Inv s → run s ops = some s1 → Inv s1
  | [], s, s1, h, hr => by
    injection hr with hr
    subst hr
    exact h
  | op :: ops, s, s1, h, hr => by
    simp only [run] at hr
    cases hstep : step s op with
    | none => rw [hstep] at hr; exact Option.noConfusion hr
    | some s2 =>
      rw [hstep] at hr
      exact inv_run ops s2 s1 (inv_step h hstep) hr

lemma reachable_inv {s : GameState} (h : Reachable s) : Inv s := by
  obtain ⟨ops, hops⟩ := h
  exact inv_run ops initState s inv_init hops



/-! ## Shared helper lemmas -/

/-- Filtering out an id carried by no element of the list is the identity. -/
lemma filter_id_eq_self {l : List Target} {tid : Nat}
    (h : ∀ t ∈ l, t.id ≠ tid) : l.filter (fun t => t.id != tid) = l :=
  List.filter_eq_self.2 fun t ht => by simpa [bne_iff_ne] using h t ht

/-- A timeout whose captured flag is false and whose id misses every live
target leaves the state unchanged. -/
lemma applyTimeout_eq_self {s : GameState} {k : TimeoutKind}
    (hcap : timeoutCap k = false)
    (htf : s.targets.filter (fun t => t.id != timeoutId k) = s.targets) :
    applyTimeout s k = s := by
  cases k with
  | expiry tid cap =>
    have hc : cap = false := by simpa [timeoutCap] using hcap
    subst hc
    simp only [timeoutId] at htf
    simp only [applyTimeout, Bool.false_eq_true, if_false]
    rw [htf]
  | removal tid =>
    simp only [timeoutId] at htf
    simp only [applyTimeout]
    rw [htf]

/-- The target list produced by a timeout body. -/
lemma applyTimeout_targets (s : GameState) (k : TimeoutKind) :
    (applyTimeout s k).targets =
      s.targets.filter (fun t => t.id != timeoutId k) := by
  cases k with
  | expiry tid cap => cases cap <;> rfl
  | removal tid => rfl

/-- find? after the hit-marking map of hitTarget. -/
lemma find?_mark (l : List Target) (tid : Nat) (t : Target)
    (hf : l.find? (fun u => u.id == tid) = some t) :
    (l.map (fun u => if u.id == tid then { u with hit := true } else u)).find?
        (fun u => u.id == tid) = some { t with hit := true } := by
  have hpt := List.find?_some hf
  rw [List.find?_map]
  have hcomp : ((fun u : Target => u.id == tid) ∘
      (fun u => if u.id == tid then { u with hit := true } else u)) =
      (fun u : Target => u.id == tid) := by
    funext u
    by_cases hu : (u.id == tid) = true
    · simp [Function.comp, hu]
    · simp [Function.comp, hu]
  rw [hcomp, hf]
  simp only [Option.map_some']
  rw [if_pos hpt]

/-- Every target of the post-step state either descends from a source-state
target with the same id (hit only ever turned on), or is the fresh spawn. -/
lemma step_target_origin {s s1 : GameState} {op : Op}
    (hs : step s op = some s1) :
    ∀ u ∈ s1.targets,
      (∃ t, t ∈ s.targets ∧ u.id = t.id ∧ (t.hit = true → u.hit = true)) ∨
        u.id = s.nextId := by
  cases op with
  | startRound =>
    simp only [step] at hs
    split at hs
    case isTrue => exact Option.noConfusion hs
    case isFalse =>
      injection hs with hs
      subst hs
      intro u hu
      simp [startGame] at hu
  | clockTick =>
    simp only [step] at hs
    split at hs
    case isFalse => exact Option.noConfusion hs
    case isTrue =>
      injection hs with hs
      subst hs
      unfold gameTick
      split
      · intro u hu
        simp [endGame] at hu
      · intro u hu
        exact Or.inl ⟨u, hu, rfl, fun hh => hh⟩
  | spawn rx ry w hh =>
    simp only [step] at hs
    split at hs
    case isFalse => exact Option.noConfusion hs
    case isTrue =>
      injection hs with hs
      subst hs
      intro u hu
      simp only [spawnTick, List.mem_append, List.mem_singleton] at hu
      rcases hu with hu | rfl
      · exact Or.inl ⟨u, hu, rfl, fun hh => hh⟩
      · exact Or.inr rfl
  | tap tid =>
    simp only [step] at hs
    injection hs with hs
    subst hs
    rcases tapTarget_eq s tid with he | ⟨t, hf, _, he⟩
    · rw [he]
      intro u hu
      exact Or.inl ⟨u, hu, rfl, fun hh => hh⟩
    · rw [he]
      intro u hu
      simp only [hitTarget, List.mem_map] at hu
      obtain ⟨v, hv, rfl⟩ := hu
      refine Or.inl ⟨v, hv, ?_, ?_⟩
      · split <;> rfl
      · intro hh
        split
        · rfl
        · exact hh
  | arenaClick =>
    simp only [step] at hs
    injection hs with hs
    subst hs
    unfold handleArenaClick
    split
    · intro u hu
      exact Or.inl ⟨u, hu, rfl, fun hh => hh⟩
    · intro u hu
      exact Or.inl ⟨u, hu, rfl, fun hh => hh⟩
  | fireTimeout i =>
    simp only [step] at hs
    cases hp : s.pending.get? i with
    | none => rw [hp] at hs; exact Option.noConfusion hs
    | some p =>
      rw [hp] at hs
      dsimp only at hs
      split at hs
      case isFalse => exact Option.noConfusion hs
      case isTrue =>
        injection hs with hs
        subst hs
        intro u hu
        rw [applyTimeout_targets] at hu
        exact Or.inl ⟨u, List.mem_of_mem_filter hu, rfl, fun hh => hh⟩
  | advance d =>
    simp only [step] at hs
    injection hs with hs
    subst hs
    intro u hu
    exact Or.inl ⟨u, hu, rfl, fun hh => hh⟩
  | selectDifficulty d =>
    simp only [step] at hs
    split at hs
    case isTrue => exact Option.noConfusion hs
    case isFalse =>
      injection hs with hs
      subst hs
      intro u hu
      exact Or.inl ⟨u, hu, rfl, fun hh => hh⟩

/-! ## Shared concrete traces for witnesses -/

/-- Press START on the fresh component. -/
def startedOps : List Op := [Op.startRound]

/-- The state right after START: active, timeLeft 30, medium difficulty. -/
def startedState : GameState := (run initState startedOps).getD initState

/-- START, wait to t=1200, spawner fires once (draws 0, arena 600 by 500). -/
def spawnedOps : List Op :=
  [Op.startRound, Op.advance 1200, Op.spawn 0 0 600 500]

/-- State with one live un-hit target (id 0) and its pending expiry. -/
def spawnedState : GameState := (run initState spawnedOps).getD initState

/-- The live target of spawnedState. -/
def spawnedTgt : Target :=
  (spawnedState.targets.find? (fun t => t.id == 0)).getD ⟨0, 0, 0, true, false⟩



/-! ## Claims -/

/-- A medium round started from idle: clock ticks at t=1000 and t=2000, the
spawner fires at t=1200 (draws 0, arena 600 by 500), nobody taps, and the
expiry of the spawned target fires at its due time t=2700 while the round is
still active (timeLeft 28). -/
def c1ops : List Op :=
  [Op.startRound, Op.advance 1000, Op.clockTick, Op.advance 200,
   Op.spawn 0 0 600 500, Op.advance 800, Op.clockTick, Op.advance 700,
   Op.fireTimeout 0]

/-- C1: the claim says an expiry firing during an active round removes the
un-hit target AND increments misses by exactly 1.  The code removes the
target but leaves misses at 0: the expiry callback tests the gameActive value
captured by the spawner closure, which is the pre-round value false, so the
miss is never counted.  Evaluation at the failing input: after the expiry at
t=2700 the round is still active (timeLeft 28), the target is gone, and
misses is 0 where the claim requires 1. -/
theorem c1_expiry_never_counts_miss :
    (run initState c1ops).map
        (fun s => (s.gameActive, s.timeLeft, s.targets.length, s.misses)) =
      some (true, 28, 0, 0) := rfl

/-- C2: cancellation completeness.  After endGame has executed for round r,
no timer callback pending from round r can change score, misses, or the live
target set: firing any pending setTimeout of round r leaves all three
unchanged (the expiry flag captured false, and its id names no live target),
and no live clock or spawner interval belongs to round r (endGame cleared
them). -/
theorem c2_no_mutation_after_round_end (s : GameState) (hs : Reachable s)
    (r : Nat) (hr : r < s.round ∨ (r = s.round ∧ s.gameActive = false)) :
    (∀ i p s1, s.pending.get? i = some p → p.round = r →
        step s (Op.fireTimeout i) = some s1 →
        s1.score = s.score ∧ s1.misses = s.misses ∧ s1.targets = s.targets) ∧
    (s.gameTimer = true → s.gameTimerRound ≠ r) ∧
    (s.targetTimer = true → s.targetTimerRound ≠ r) := by
  obtain ⟨h1, h2, h3, h4, h5, h6, h7, h8, h9, h10⟩ := reachable_inv hs
  refine ⟨?_, ?_, ?_⟩
  · intro i p s1 hp hpr hstep
    simp only [step, hp] at hstep
    split at hstep
    case isFalse => exact Option.noConfusion hstep
    case isTrue hdue =>
      injection hstep with hstep
      subst hstep
      have hpm : p ∈ s.pending := List.get?_mem hp
      have hcap : timeoutCap p.kind = false := h2 p hpm
      have htf : s.targets.filter (fun t => t.id != timeoutId p.kind) =
          s.targets := by
        rcases hr with hlt | ⟨heq, hga⟩
        · apply filter_id_eq_self
          intro t ht
          have hta := (h8 t ht).1
          have hpb := (h9 p hpm).2 (by omega)
          omega
        · rw [(h3 hga).1]
          rfl
      have heq1 : applyTimeout { s with pending := s.pending.eraseIdx i }
          p.kind = { s with pending := s.pending.eraseIdx i } :=
        applyTimeout_eq_self hcap htf
      rw [heq1]
      exact ⟨rfl, rfl, rfl⟩
  · intro hgt
    obtain ⟨hact, hrd⟩ := h4 hgt
    rcases hr with hlt | ⟨heq, hga⟩
    · omega
    · rw [hga] at hact
      exact Bool.noConfusion hact
  · intro htt
    obtain ⟨hact, hrd⟩ := h5 htt
    rcases hr with hlt | ⟨heq, hga⟩
    · omega
    · rw [hga] at hact
      exact Bool.noConfusion hact

/-- A full medium round: START, one spawn at t=1200, then the clock runs out
(30 ticks); the final tick ends the round.  The spawned target was neither
tapped nor expired during the round, so its expiry is still pending when the
round ends. -/
def c2ops : List Op :=
  [Op.startRound, Op.advance 1200, Op.spawn 0 0 600 500, Op.advance 28800] ++
    List.replicate 30 Op.clockTick

/-- The ended-round state reached by c2ops. -/
def c2State : GameState := (run initState c2ops).getD initState

/-- c2State after the stale expiry of round 1 fires. -/
def c2fired : GameState := (step c2State (Op.fireTimeout 0)).getD initState

/-- Witness for C2: firing the round-1 expiry after round 1 has ended changes
neither score nor misses nor the live target set. -/
theorem c2_no_mutation_after_round_end_witness :
    c2fired.score = c2State.score ∧ c2fired.misses = c2State.misses ∧
      c2fired.targets = c2State.targets :=
  (c2_no_mutation_after_round_end c2State ⟨c2ops, rfl⟩ 1
      (Or.inr ⟨rfl, rfl⟩)).1 0 ⟨1, 2700, TimeoutKind.expiry 0 false⟩ c2fired
    rfl rfl rfl

/-- C3: mutual exclusion of hit and miss for one target, under every
interleaving of the tap handler and the expiry callback: firing any expiry
changes neither misses nor score, because the expiry callback tests the
captured gameActive flag, which is always false in reachable states.  In
particular a target whose tap incremented score is never also counted as a
miss, and conversely. -/
theorem c3_at_most_one_outcome (s : GameState) (hs : Reachable s)
    (i : Nat) (p : Timeout) (tid : Nat) (cap : Bool) (s1 : GameState)
    (hp : s.pending.get? i = some p)
    (hk : p.kind = TimeoutKind.expiry tid cap)
    (hstep : step s (Op.fireTimeout i) = some s1) :
    s1.misses = s.misses ∧ s1.score = s.score := by
  obtain ⟨h1, h2, h3, h4, h5, h6, h7, h8, h9, h10⟩ := reachable_inv hs
  have hcap : timeoutCap p.kind = false := h2 p (List.get?_mem hp)
  simp only [step, hp] at hstep
  split at hstep
  case isFalse => exact Option.noConfusion hstep
  case isTrue hdue =>
    injection hstep with hstep
    subst hstep
    rw [hk] at hcap ⊢
    have hc : cap = false := by simpa [timeoutCap] using hcap
    subst hc
    simp [applyTimeout]

/-- START, spawn at t=1200, tap the target at t=1200, wait until t=2700 when
its (still pending) expiry is due. -/
def c3ops : List Op :=
  [Op.startRound, Op.advance 1200, Op.spawn 0 0 600 500, Op.tap 0,
   Op.advance 1500]

/-- State with a hit target (score 1) and its expiry about to fire. -/
def c3State : GameState := (run initState c3ops).getD initState

/-- c3State after the expiry of the hit target fires. -/
def c3fired : GameState := (step c3State (Op.fireTimeout 0)).getD initState

/-- Witness for C3: firing the expiry of the already-hit target changes
neither misses nor score. -/
theorem c3_at_most_one_outcome_witness :
    c3fired.misses = c3State.misses ∧ c3fired.score = c3State.score :=
  c3_at_most_one_outcome c3State ⟨c3ops, rfl⟩ 0
    ⟨1, 2700, TimeoutKind.expiry 0 false⟩ 0 false c3fired rfl rfl rfl

/-- C4 counterexample: the claim says invoking hitTarget on an absent id is a
no-op on score.  In the code hitTarget increments score unconditionally: on
the initial state, whose live set is empty, hitTarget 5 raises score from 0
to 1. -/
theorem c4_hitTarget_not_noop :
    initState.targets = [] ∧ initState.score = 0 ∧
      (hitTarget initState 5).score = 1 ∧ (hitTarget initState 5).targets = [] :=
  ⟨rfl, rfl, rfl, rfl⟩

/-- C4 amended: the duplicate-tap guard lives in the target button onClick
handler (tapTarget), not in hitTarget itself.  tapTarget on an absent or
already-hit target is a no-op on the whole state, and tapping the same target
twice increments score exactly once (the second tap is a complete no-op). -/
theorem c4_tap_guard (s : GameState) (tid : Nat) :
    (s.targets.find? (fun u => u.id == tid) = none → tapTarget s tid = s) ∧
    (∀ t, s.targets.find? (fun u => u.id == tid) = some t → t.hit = true →
        tapTarget s tid = s) ∧
    (∀ t, s.targets.find? (fun u => u.id == tid) = some t → t.hit = false →
        (tapTarget s tid).score = s.score + 1 ∧
        tapTarget (tapTarget s tid) tid = tapTarget s tid) := by
  refine ⟨?_, ?_, ?_⟩
  · intro hf
    unfold tapTarget
    rw [hf]
  · intro t hf hh
    unfold tapTarget
    rw [hf]
    simp [hh]
  · intro t hf hh
    have htap : tapTarget s tid = hitTarget s tid := by
      unfold tapTarget
      rw [hf]
      simp [hh]
    have hffind := find?_mark s.targets tid t hf
    constructor
    · rw [htap]
      rfl
    · rw [htap]
      show tapTarget (hitTarget s tid) tid = hitTarget s tid
      unfold tapTarget
      rw [show (hitTarget s tid).targets = s.targets.map
            (fun u => if u.id == tid then { u with hit := true } else u)
          from rfl] at *
      rw [hffind]
      simp

/-- Witness for C4 (amended): on the concrete one-target state, the first tap
raises score by one and a second tap of the same target changes nothing. -/
theorem c4_tap_guard_witness :
    (tapTarget spawnedState 0).score = spawnedState.score + 1 ∧
      tapTarget (tapTarget spawnedState 0) 0 = tapTarget spawnedState 0 :=
  (c4_tap_guard spawnedState 0).2.2 spawnedTgt rfl rfl

/-- C5: startGame resets score and misses to 0, timeLeft to 30, clears the
live target set and marks the round active, from every prior state. -/
theorem c5_startRound_resets (s : GameState) :
    (startGame s).score = 0 ∧ (startGame s).misses = 0 ∧
      (startGame s).timeLeft = 30 ∧ (startGame s).targets = [] ∧
      (startGame s).gameActive = true :=
  ⟨rfl, rfl, rfl, rfl, rfl⟩



/-- C6: in every reachable state, an active round has timeLeft at least 1:
the clock tick that would show 0 ends the round in the same callback, so no
state is observed with timeLeft = 0 while still active. -/
theorem c6_active_implies_time_positive (s : GameState) (hs : Reachable s)
    (ha : s.gameActive = true) : 1 ≤ s.timeLeft :=
  (reachable_inv hs).2.2.2.2.2.1 ha

/-- Witness for C6 at the concrete just-started state. -/
theorem c6_active_implies_time_positive_witness : 1 ≤ startedState.timeLeft :=
  c6_active_implies_time_positive startedState ⟨startedOps, rfl⟩ rfl

/-- C7 counterexample: the claim asserts containment for EVERY arena size,
but when the arena is narrower than the target (width 10 versus medium size
60) the computed x is negative: with draw 1/2 the spawn position is
x = (1/2) * (10 - 60) = -25 < 0, outside the arena. -/
theorem c7_escapes_small_arena :
    (0:ℚ) ≤ 1/2 ∧ (1/2:ℚ) < 1 ∧
      (spawnedTarget startedState (1/2) (1/2) 10 500).x < 0 := by
  refine ⟨by norm_num, by norm_num, ?_⟩
  have hd : startedState.difficulty = Difficulty.medium := rfl
  simp only [spawnedTarget, hd, targetSize]
  norm_num

/-- C7 amended: whenever the target size fits the arena (size ≤ width and
size ≤ height), the spawned target position lies in
[0, w - size] x [0, h - size], for all draws in [0,1); and spawnTick appends
exactly that target. -/
theorem c7_spawn_in_bounds (s : GameState) (rx ry w h : ℚ)
    (hrx0 : 0 ≤ rx) (hrx1 : rx < 1) (hry0 : 0 ≤ ry) (hry1 : ry < 1)
    (hw : targetSize s.difficulty ≤ w) (hh : targetSize s.difficulty ≤ h) :
    0 ≤ (spawnedTarget s rx ry w h).x ∧
      (spawnedTarget s rx ry w h).x ≤ w - targetSize s.difficulty ∧
      0 ≤ (spawnedTarget s rx ry w h).y ∧
      (spawnedTarget s rx ry w h).y ≤ h - targetSize s.difficulty ∧
      (spawnTick s rx ry w h).targets =
        s.targets ++ [spawnedTarget s rx ry w h] := by
  have hw0 : (0:ℚ) ≤ w - targetSize s.difficulty := by linarith
  have hh0 : (0:ℚ) ≤ h - targetSize s.difficulty := by linarith
  exact ⟨mul_nonneg hrx0 hw0, mul_le_of_le_one_left hw0 hrx1.le,
    mul_nonneg hry0 hh0, mul_le_of_le_one_left hh0 hry1.le, rfl⟩

/-- Witness for C7 (amended) on the 600 by 500 arena at medium size 60. -/
theorem c7_spawn_in_bounds_witness :
    0 ≤ (spawnedTarget startedState (1/2) (1/2) 600 500).x ∧
      (spawnedTarget startedState (1/2) (1/2) 600 500).x ≤
        600 - targetSize startedState.difficulty ∧
      0 ≤ (spawnedTarget startedState (1/2) (1/2) 600 500).y ∧
      (spawnedTarget startedState (1/2) (1/2) 600 500).y ≤
        500 - targetSize startedState.difficulty ∧
      (spawnTick startedState (1/2) (1/2) 600 500).targets =
        startedState.targets ++
          [spawnedTarget startedState (1/2) (1/2) 600 500] := by
  have hd : startedState.difficulty = Difficulty.medium := rfl
  exact c7_spawn_in_bounds startedState (1/2) (1/2) 600 500 (by norm_num)
    (by norm_num) (by norm_num) (by norm_num)
    (by rw [hd]; norm_num [targetSize]) (by rw [hd]; norm_num [targetSize])

/-- C8: a tap on the arena background increments misses by exactly 1 while
the round is active (leaving score and targets alone), and is a complete
no-op while inactive. -/
theorem c8_background_tap (s : GameState) :
    (s.gameActive = true →
        (handleArenaClick s).misses = s.misses + 1 ∧
        (handleArenaClick s).score = s.score ∧
        (handleArenaClick s).targets = s.targets) ∧
    (s.gameActive = false → handleArenaClick s = s) := by
  constructor
  · intro h
    simp [handleArenaClick, h]
  · intro h
    simp [handleArenaClick, h]

/-- Witness for C8: active case on the just-started state, inactive case on
the initial state. -/
theorem c8_background_tap_witness :
    (handleArenaClick startedState).misses = startedState.misses + 1 ∧
      handleArenaClick initState = initState :=
  ⟨((c8_background_tap startedState).1 rfl).1,
    (c8_background_tap initState).2 rfl⟩

/-- C9: endGame is idempotent (endGame after endGame equals endGame on every
state), and on every reachable inactive state endGame changes nothing at all
(the live set is already empty and both intervals already cleared). -/
theorem c9_endRound_idempotent :
    (∀ s : GameState, endGame (endGame s) = endGame s) ∧
    (∀ s : GameState, Reachable s → s.gameActive = false → endGame s = s) := by
  constructor
  · intro s
    rfl
  · intro s hs hga
    obtain ⟨h1, h2, h3, h4, h5, h6, h7, h8, h9, h10⟩ := reachable_inv hs
    obtain ⟨htg, hgt, htt⟩ := h3 hga
    cases s
    simp_all [endGame]

/-- Witness for C9 on the initial (inactive) state. -/
theorem c9_endRound_idempotent_witness : endGame initState = initState :=
  c9_endRound_idempotent.2 initState ⟨[], rfl⟩ rfl

/-- As c10ops shows, a target hit at t=2600 whose expiry is due at t=2700 is
removed by that expiry at t=2700, 100 ms after the hit: START, ticks at
1000 and 2000, spawn at 1200 (expiry due 2700), tap at 2600 (removal
scheduled for 2800), expiry fires at 2700. -/
def c10ops : List Op :=
  [Op.startRound, Op.advance 1000, Op.clockTick, Op.advance 200,
   Op.spawn 0 0 600 500, Op.advance 800, Op.clockTick, Op.advance 600,
   Op.tap 0, Op.advance 100, Op.fireTimeout 0]

/-- C10 counterexample: the claim says a hit target is removed exactly 200 ms
after the hit.  In the run of c10ops the target is hit at t=2600 (score 1,
removal pending for t=2800), yet at t=2700 the live set is already empty:
the expiry callback removes the target by id without checking the hit flag,
so removal happened 100 ms after the hit, before the 200 ms delay elapsed. -/
theorem c10_removed_before_delay :
    (run initState c10ops).map
        (fun s => (s.now, s.score, s.misses, s.targets.length,
          s.pending.map Timeout.fireAt)) = some (2700, 1, 0, 0, [2800]) ∧
      2700 < 2600 + 200 :=
  ⟨rfl, by norm_num⟩

/-- C10 amended: the hit flag is monotone under every step (a target that
descends to the next state keeps hit = true), the tap of a live un-hit
target schedules its removal exactly 200 ms after the hit, and a removed id
never re-enters the live set (ids are never reused); but the hit target may
leave the live set earlier than the 200 ms delay, through its own expiry or
through round end. -/
theorem c10_hit_flag_monotone (s : GameState) (hs : Reachable s) :
    (∀ op s1, step s op = some s1 → ∀ t ∈ s.targets, t.hit = true →
        ∀ u ∈ s1.targets, u.id = t.id → u.hit = true) ∧
    (∀ tid t, s.targets.find? (fun u => u.id == tid) = some t →
        t.hit = false →
        (tapTarget s tid).pending =
          s.pending ++ [⟨s.round, s.now + 200, TimeoutKind.removal tid⟩]) ∧
    (∀ op s1, step s op = some s1 → ∀ n, n < s.nextId →
        n ∉ s.targets.map Target.id → n ∉ s1.targets.map Target.id) := by
  obtain ⟨h1, h2, h3, h4, h5, h6, h7, h8, h9, h10⟩ := reachable_inv hs
  refine ⟨?_, ?_, ?_⟩
  · intro op s1 hstep t ht hhit u hu hid
    rcases step_target_origin hstep u hu with ⟨t2, ht2, hid2, himp⟩ | hnew
    · have ht2t : t2 = t :=
        List.inj_on_of_nodup_map h10 ht2 ht (hid2.symm.trans hid)
      subst ht2t
      exact himp hhit
    · have hlt := (h8 t ht).2
      omega
  · intro tid t hf hh
    have htap : tapTarget s tid = hitTarget s tid := by
      unfold tapTarget
      rw [hf]
      simp [hh]
    rw [htap]
    rfl
  · intro op s1 hstep n hn hnin hmem
    obtain ⟨u, hu, rfl⟩ := List.mem_map.1 hmem
    rcases step_target_origin hstep u hu with ⟨t2, ht2, hid2, _⟩ | hnew
    · apply hnin
      rw [hid2]
      exact List.mem_map_of_mem Target.id ht2
    · omega

/-- Witness for C10 (amended): tapping the live un-hit target of the concrete
spawned state schedules its removal exactly 200 ms later. -/
theorem c10_hit_flag_monotone_witness :
    (tapTarget spawnedState 0).pending =
      spawnedState.pending ++
        [⟨spawnedState.round, spawnedState.now + 200,
          TimeoutKind.removal 0⟩] :=
  (c10_hit_flag_monotone spawnedState ⟨spawnedOps, rfl⟩).2.1 0 spawnedTgt
    rfl rfl

end Arena
